import Mathlib

/-!
Verification of the Alien Invasion game (Lab14Submission).

This file gives a shallow embedding of the parts of the program that the
claims refer to, and proves or refutes each claim against it.

Conventions of the embedding:
* Python integers become `ℤ`, Python loop indices become `ℕ`.
* Python floats become `ℚ`.  The concrete float values appearing in the
  program are all exactly representable: the base speeds are integers, and
  the first difficulty scaling `10 * 1.1` rounds to exactly `11.0` in
  binary64, so the rational model agrees with the program on the values
  used in the theorems below.
* A `pygame.Rect` stores C integers; assigning a float to a rect field
  truncates toward zero, modelled by `ratTrunc`.
* `pygame` sprite groups become lists, in insertion order (pygame groups
  iterate in insertion order).
* File-system and JSON effects (game_stats.py) are modelled by small
  inductive types describing the outcome of each OS/library call, with
  `Except` for uncaught Python exceptions.
-/

/-! ### Settings (settings.py)

Static and dynamic settings, as set in `Settings.__init__` and
`Settings.initialize_dynamic_settings`. -/

def screen_w : ℤ := 1200
def screen_h : ℤ := 800
def ship_w : ℤ := 40
def ship_h : ℤ := 60
def alien_w : ℤ := 40
def alien_h : ℤ := 40
def fleet_direction : ℤ := 1
def ship_speed : ℚ := 10
def starting_ship_count : ℤ := 3
def bullet_amount : ℕ := 50
def fleet_speed : ℚ := 5
def fleet_drop_speed : ℚ := 40
def alien_points : ℤ := 50

/-- The ship image is scaled to `(ship_w, ship_h) = (40, 60)` and then
rotated by -90 degrees (`Ship.__init__`), which swaps the dimensions, so
the ship's rect is 60 wide and 40 tall. -/
def ship_rect_h : ℤ := 40

/-- The alien image is scaled to `(alien_h, alien_w) = (40, 40)` and
rotated by -90 degrees (`Alien.__init__`); the rect stays 40 by 40. -/
def alien_rect_h : ℤ := 40

/-! ### Rect truncation

Assigning a Python float to a `pygame.Rect` field truncates it toward
zero (C integer conversion). -/

/-- Truncation of a rational toward zero, as performed when a float is
assigned to a `pygame.Rect` coordinate. -/
def ratTrunc (q : ℚ) : ℤ := if 0 ≤ q then ⌊q⌋ else ⌈q⌉

theorem ratTrunc_intCast (n : ℤ) : ratTrunc (n : ℚ) = n := by
  unfold ratTrunc
  split
  · exact Int.floor_intCast n
  · exact Int.ceil_intCast n

theorem le_of_ratTrunc_pos {q : ℚ} (h : 0 < ratTrunc q) : 1 ≤ q := by
  unfold ratTrunc at h
  split at h
  · exact_mod_cast (Int.le_floor).mp h
  · rename_i hq
    have : ⌈q⌉ ≤ (0 : ℤ) := Int.ceil_le.mpr (by exact_mod_cast le_of_lt (lt_of_not_le hq))
    omega

theorem lt_of_ratTrunc_lt {q : ℚ} {z : ℤ} (h : ratTrunc q < z) : q < z := by
  unfold ratTrunc at h
  split at h
  · exact Int.floor_lt.mp h
  · calc q ≤ (⌈q⌉ : ℚ) := Int.le_ceil q
      _ < z := by exact_mod_cast h

/-! ### Ship movement (ship.py)

`Ship._update_ship_movement` reads the movement flags and the current
rect, moves the float accumulator `self.y` by `ship_speed` for each flag
whose boundary test passes, and finally writes `self.y` back to
`self.rect.y`.  Both boundary tests read the rect from before the move
(the rect is only synced at the end of the method).  The screen rect has
top 0 and bottom `screen_h`. -/

/-- One call of `Ship._update_ship_movement`, acting on the float
accumulator `y`.  `up`/`down` are the `moving_up`/`moving_down` flags and
`speed` is `self.settings.ship_speed`. -/
def update_ship_movement (speed : ℚ) (up down : Bool) (y : ℚ) : ℚ :=
  let top : ℤ := ratTrunc y
  let y1 := if up = true ∧ 0 < top then y - speed else y
  let y2 := if down = true ∧ top + ship_rect_h < screen_h then y1 + speed else y1
  y2

/-- Repeated frames of `Ship.update()` as far as movement is concerned:
each frame supplies the pair of movement flags held during that frame. -/
def run_ship (speed : ℚ) (frames : List (Bool × Bool)) (y : ℚ) : ℚ :=
  frames.foldl (fun y f => update_ship_movement speed f.1 f.2 y) y

/-- The ship starts centered: `rect.midleft = boundaries.midleft` puts the
40-pixel-tall rect at `y = 400 - 40 / 2 = 380`. -/
def ship_start_y : ℤ := 380

/-- Integer mirror of `update_ship_movement`, used to evaluate runs whose
speed and position are integral (which covers the program's speeds 10 and
11 exactly). -/
def update_ship_movement_int (speed : ℤ) (up down : Bool) (y : ℤ) : ℤ :=
  let y1 := if up = true ∧ 0 < y then y - speed else y
  let y2 := if down = true ∧ y + ship_rect_h < screen_h then y1 + speed else y1
  y2

def run_ship_int (speed : ℤ) (frames : List (Bool × Bool)) (y : ℤ) : ℤ :=
  frames.foldl (fun y f => update_ship_movement_int speed f.1 f.2 y) y

theorem update_ship_movement_cast (s k : ℤ) (up down : Bool) :
    update_ship_movement (s : ℚ) up down (k : ℚ)
      = ((update_ship_movement_int s up down k : ℤ) : ℚ) := by
  unfold update_ship_movement update_ship_movement_int
  rw [ratTrunc_intCast]
  by_cases h1 : up = true ∧ 0 < k <;>
    by_cases h2 : down = true ∧ k + ship_rect_h < screen_h <;>
      simp only [h1, h2, if_true, if_false, if_pos, if_neg, not_false_iff] <;>
        (try push_cast) <;> (try ring)

theorem run_ship_cast (s k : ℤ) (frames : List (Bool × Bool)) :
    run_ship (s : ℚ) frames (k : ℚ) = ((run_ship_int s frames k : ℤ) : ℚ) := by
  induction frames generalizing k with
  | nil => rfl
  | cons f rest ih =>
      simp only [run_ship, run_ship_int, List.foldl_cons] at *
      rw [update_ship_movement_cast, ih]

/-! ### Game status (Lab14_corta1.py)

`AlienInvasion._check_game_status` is called once per life-loss event
(ship/fleet collision, or the fleet reaching the left boundary). -/

structure GameSession where
  ships_left : ℤ
  game_active : Bool
  level_resets : ℕ
  deriving DecidableEq, Repr

/-- One call of `AlienInvasion._check_game_status`.  `level_resets` counts
the calls to `_reset_level` (clearing arsenal and fleet and re-creating
the fleet). -/
def check_game_status (st : GameSession) : GameSession :=
  if st.ships_left > 0 then
    { st with ships_left := st.ships_left - 1, level_resets := st.level_resets + 1 }
  else
    { st with game_active := false }

/-- Session state right after `restart_game`: `reset_stats` sets
`ships_left := starting_ship_count` and the game becomes active. -/
def session_start : GameSession :=
  { ships_left := starting_ship_count, game_active := true, level_resets := 0 }

/-! ### Persistence (game_stats.py)

`GameStats.init_saved_scores` and `GameStats.save_scores`.  The state of
the scores file and the outcome of the one write call are inputs; an
`Except.error` models an uncaught Python exception aborting the session. -/

inductive ScoresFile where
  | missing
  | malformed
  | valid (hi_score : ℤ)
  deriving DecidableEq, Repr

inductive WriteOutcome where
  | ok
  | fileNotFound
  | permissionDenied
  deriving DecidableEq, Repr

inductive PyError where
  | jsonDecodeError
  | osError
  deriving DecidableEq, Repr

def file_exists : ScoresFile → Bool
  | .missing => false
  | _ => true

/-- The guard in `init_saved_scores` is
`self.path.stat.__sizeof__() > 20`: it takes the `__sizeof__` of the
*bound method object* `self.path.stat` (it never calls `stat()`), which is
a constant of the CPython runtime, far larger than 20 — not the file
size.  So the guard reduces to `path.exists()`. -/
def stat_method_sizeof : ℕ := 72

/-- `GameStats.save_scores`: `path.write_text` inside
`try ... except FileNotFoundError`; only `FileNotFoundError` is caught
(and printed), every other `OSError` (e.g. `PermissionError` for an
unwritable path) propagates. -/
def save_scores (write : WriteOutcome) : Except PyError Unit :=
  match write with
  | .ok => .ok ()
  | .fileNotFound => .ok ()
  | .permissionDenied => .error .osError

/-- `GameStats.init_saved_scores`.  Returns the resulting `hi_score`
together with a flag recording whether a fresh default record was written
(`save_scores` called).  `json.loads` on malformed contents raises an
uncaught `json.JSONDecodeError`. -/
def init_saved_scores (file : ScoresFile) (write : WriteOutcome) :
    Except PyError (ℤ × Bool) :=
  if file_exists file = true ∧ 20 < stat_method_sizeof then
    match file with
    | .missing => .error .osError
    | .malformed => .error .jsonDecodeError
    | .valid h => .ok (h, false)
  else
    (save_scores write).map (fun _ => ((0 : ℤ), true))

/-! ### Collision resolution (alien_fleet.py / pygame)

`AlienFleet.check_collisions` calls
`pygame.sprite.groupcollide(self.fleet, other_group, True, True)`:
it iterates over a snapshot of the fleet in insertion order; for each
alien it collects (and, `dokill`, removes) all projectiles of the second
group currently colliding with it, and kills the alien when that list is
non-empty.  The returned dict maps each killed alien to the projectiles
it consumed. -/

structure Rect where
  x : ℤ
  y : ℤ
  w : ℤ
  h : ℤ
  deriving DecidableEq, Repr

/-- `pygame.Rect.colliderect`: overlap test, exclusive at the edges. -/
def colliderect (a b : Rect) : Bool :=
  decide (a.x < b.x + b.w) && decide (a.x + a.w > b.x) &&
    decide (a.y < b.y + b.h) && decide (a.y + a.h > b.y)

/-- `pygame.sprite.groupcollide(grpa, grpb, True, True)`.  Returns the
collision dict (as an association list in iteration order), the surviving
members of the first group, and the surviving members of the second. -/
def groupcollide : List Rect → List Rect → List (Rect × List Rect) × List Rect × List Rect
  | [], grpb => ([], [], grpb)
  | a :: rest, grpb =>
      let hit := grpb.filter (fun b => colliderect a b)
      if hit.isEmpty then
        let r := groupcollide rest grpb
        (r.1, a :: r.2.1, r.2.2)
      else
        let r := groupcollide rest (grpb.filter (fun b => !colliderect a b))
        ((a, hit) :: r.1, r.2.1, r.2.2)

/-- `AlienFleet.check_collisions(other_group)`. -/
def fleet_check_collisions (fleet other_group : List Rect) :
    List (Rect × List Rect) × List Rect × List Rect :=
  groupcollide fleet other_group

/-! ### Scores (game_stats.py) -/

/-- `GameStats._update_score`: one `alien_points` increment per entry of
`collisions.values()` (one entry per destroyed alien). -/
def update_score {α : Type} (collisions : List α) (score : ℤ) : ℤ :=
  collisions.foldl (fun s _ => s + alien_points) score

structure GameStats where
  score : ℤ
  max_score : ℤ
  hi_score : ℤ
  ships_left : ℤ
  level : ℤ
  deriving DecidableEq, Repr

/-- `GameStats._update_max_score`. -/
def update_max_score (st : GameStats) : GameStats :=
  if st.score > st.max_score then { st with max_score := st.score } else st

/-- `GameStats._update_hi_score`. -/
def update_hi_score (st : GameStats) : GameStats :=
  if st.score > st.hi_score then { st with hi_score := st.score } else st

/-- `GameStats.update(collisions)`: score, then session max, then
persisted high score. -/
def stats_update {α : Type} (collisions : List α) (st : GameStats) : GameStats :=
  update_hi_score (update_max_score { st with score := update_score collisions st.score })

/-- `GameStats.reset_stats`: assigns `ships_left`, `score` and `level`
and nothing else. -/
def reset_stats (st : GameStats) : GameStats :=
  { st with ships_left := starting_ship_count, score := 0, level := 1 }

/-- State after `GameStats.__init__`: `max_score = 0`, `hi_score` as
loaded from disk, then `reset_stats`. -/
def stats_init (h0 : ℤ) : GameStats :=
  reset_stats { score := 0, max_score := 0, hi_score := h0,
                ships_left := starting_ship_count, level := 1 }

/-- Score-relevant events of a running session: a `GameStats.update` call
with `n` destroyed aliens (`n` entries in the collisions dict), or a
restart (`restart_game`, which calls `reset_stats`). -/
inductive SessionEv where
  | kills (n : ℕ)
  | restart
  deriving DecidableEq, Repr

def session_step (st : GameStats) : SessionEv → GameStats
  | .kills n => stats_update (List.replicate n ()) st
  | .restart => reset_stats st

/-! ### Arsenal (arsenal.py) -/

/-- `Arsenal.fire_bullet`: fires iff the pool is below
`settings.bullet_amount`.  A new bullet's rect gets
`rect.midleft = ship.rect.midleft` (`Bullet.__init__`), so the pool
stores the midleft point each bullet was created at. -/
def fire_bullet (amount : ℕ) (ship_midleft : ℤ × ℤ) (arsenal : List (ℤ × ℤ)) :
    Bool × List (ℤ × ℤ) :=
  if arsenal.length < amount then (true, arsenal ++ [ship_midleft]) else (false, arsenal)

/-- `n` consecutive `fire_bullet` calls with no removals in between;
returns the list of results and the final pool. -/
def fire_repeat (amount : ℕ) (ship_midleft : ℤ × ℤ) :
    ℕ → List (ℤ × ℤ) → List Bool × List (ℤ × ℤ)
  | 0, pool => ([], pool)
  | n + 1, pool =>
      let r := fire_bullet amount ship_midleft pool
      let rest := fire_repeat amount ship_midleft n r.2
      (r.1 :: rest.1, rest.2)

/-! ### Fleet layout (alien_fleet.py) -/

/-- `AlienFleet.calculate_fleet_size`.  Python `//` is floor division
(`Int.fdiv`); `(screen_w / 2) // alien_w` is the floor of the exact
quotient `screen_w / (2 * alien_w)` (halving is exact in binary64 and the
floor of a floor-composition collapses), and `%` with the positive
modulus 2 agrees with `Int.emod`. -/
def calculate_fleet_size (alien_h screen_h alien_w screen_w : ℤ) : ℤ × ℤ :=
  let fleet_h := Int.fdiv screen_h alien_h
  let fleet_w := Int.fdiv screen_w (2 * alien_w)
  let fleet_h := if fleet_h % 2 = 0 then fleet_h - 1 else fleet_h - 2
  let fleet_w := if fleet_w % 2 = 0 then fleet_w - 1 else fleet_w - 2
  (fleet_h, fleet_w)

/-- `Alien.__init__(fleet, x, y)` sets `rect.x = x` and `rect.y = y`;
an alien is represented by its `(rect.x, rect.y)` pair. -/
def alien_rect_pos (x y : ℤ) : ℤ × ℤ := (x, y)

/-- `AlienFleet._create_alien(current_x, current_y)` constructs
`Alien(self, current_y, current_x)` — its arguments swapped. -/
def create_alien (current_x current_y : ℤ) : ℤ × ℤ :=
  alien_rect_pos current_y current_x

/-- `AlienFleet._create_rectangle_fleet`: outer loop over columns, inner
over rows; cells with an even row or even column index are skipped; the
call site passes `(current_y, current_x)` to `_create_alien` (swapped a
second time). -/
def create_rectangle_fleet (fleet_w fleet_h : ℕ) (aw ah x_offset y_offset : ℤ) :
    List (ℤ × ℤ) :=
  ((List.range fleet_w).map (fun (col : ℕ) =>
    (List.range fleet_h).filterMap (fun (row : ℕ) =>
      if row % 2 = 0 ∨ col % 2 = 0 then none
      else some (create_alien (ah * (row : ℤ) + y_offset) (aw * (col : ℤ) + x_offset))))).flatten

/-! ### Fleet movement (alien_fleet.py, alien.py)

An alien keeps float accumulators `x`, `y`; its rect is synced from them
on each `Alien.update`, so at the time of the edge check the rect holds
the truncation of the current accumulators. -/

structure AlienState where
  x : ℚ
  y : ℚ
  deriving DecidableEq, Repr

structure FleetState where
  aliens : List AlienState
  fleet_direction : ℤ
  deriving DecidableEq, Repr

/-- `Alien.check_edges`: `rect.bottom >= boundaries.bottom or
rect.top <= boundaries.top`. -/
def check_edges (a : AlienState) : Bool :=
  decide (screen_h ≤ ratTrunc a.y + alien_rect_h) || decide (ratTrunc a.y ≤ 0)

/-- `AlienFleet._drop_alien_fleet`: every alien's `x` decreases by the
drop distance (backward, toward the ship on the left). -/
def drop_alien_fleet (drop : ℚ) (aliens : List AlienState) : List AlienState :=
  aliens.map (fun a => { a with x := a.x - drop })

/-- `AlienFleet._check_fleet_edges`: on the first alien touching an edge,
drop the fleet, flip the direction, and stop scanning. -/
def check_fleet_edges (drop : ℚ) (f : FleetState) : FleetState :=
  if f.aliens.any check_edges then
    { aliens := drop_alien_fleet drop f.aliens,
      fleet_direction := f.fleet_direction * -1 }
  else f

/-- `Alien.update`: move along the scroll (vertical) axis by
`fleet_speed * fleet_direction`, reading the fleet's shared (already
flipped) direction. -/
def alien_update (speed : ℚ) (dir : ℤ) (a : AlienState) : AlienState :=
  { a with y := a.y + speed * (dir : ℚ) }

/-- `AlienFleet.update_fleet`: the edge check runs first, then every
alien moves. -/
def update_fleet (speed drop : ℚ) (f : FleetState) : FleetState :=
  let f1 := check_fleet_edges drop f
  { f1 with aliens := f1.aliens.map (alien_update speed f1.fleet_direction) }

/-! ## Helper lemmas -/

theorem update_score_eq {α : Type} (l : List α) (s : ℤ) :
    update_score l s = s + alien_points * l.length := by
  induction l generalizing s with
  | nil => simp [update_score]
  | cons a t ih =>
      simp only [update_score, List.foldl_cons] at *
      rw [ih]
      simp only [List.length_cons]
      push_cast
      ring

/-! ## C2: lives and game-active transitions -/

/-- C2, counterexample: by `_check_game_status`'s own rule, the third
life-loss event starting from 3 lives still finds `ships_left = 1 > 0`,
so it decrements to 0 and the game stays active; `game_active` does not
become false on the third event, contrary to the claim's scenario. -/
theorem check_game_status_third_collision_cex :
    (check_game_status^[3] session_start).ships_left = 0 ∧
      (check_game_status^[3] session_start).game_active = true := by
  constructor <;> decide

/-- C2, amended: with lives remaining > 0 a life-loss event decrements
lives by one, performs a level reset and leaves the game active; with
lives remaining = 0 it only deactivates the game.  From 3 lives, three
events in succession bring lives to 2, 1, 0 with the game still active
throughout, and a fourth event deactivates the game. -/
theorem check_game_status_lives (st : GameSession) :
    (0 < st.ships_left →
      (check_game_status st).ships_left = st.ships_left - 1 ∧
      (check_game_status st).game_active = st.game_active ∧
      (check_game_status st).level_resets = st.level_resets + 1) ∧
    (st.ships_left = 0 →
      (check_game_status st).game_active = false ∧
      (check_game_status st).ships_left = st.ships_left ∧
      (check_game_status st).level_resets = st.level_resets) ∧
    (check_game_status^[1] session_start = ⟨2, true, 1⟩ ∧
      check_game_status^[2] session_start = ⟨1, true, 2⟩ ∧
      check_game_status^[3] session_start = ⟨0, true, 3⟩ ∧
      check_game_status^[4] session_start = ⟨0, false, 3⟩) := by
  refine ⟨fun h => ?_, fun h => ?_, by decide, by decide, by decide, by decide⟩
  · simp [check_game_status, h]
  · simp [check_game_status, h]

/-- C2 witness: the first life-loss event at 3 lives. -/
theorem check_game_status_lives_witness :
    (check_game_status session_start).ships_left = session_start.ships_left - 1 ∧
      (check_game_status session_start).game_active = session_start.game_active ∧
      (check_game_status session_start).level_resets = session_start.level_resets + 1 :=
  (check_game_status_lives session_start).1 (by decide)

/-! ## C3: persistence error handling -/

/-- C3, counterexample: an existing but malformed scores file is not
treated as `hi_score = 0`; `json.loads` raises an uncaught
`JSONDecodeError` (the guard `self.path.stat.__sizeof__() > 20` measures
the bound method object, not the file, so any existing file is parsed).
Likewise a write failure other than `FileNotFoundError` propagates. -/
theorem init_saved_scores_malformed_cex :
    init_saved_scores .malformed .ok = .error .jsonDecodeError ∧
      save_scores .permissionDenied = .error .osError := by
  constructor <;> rfl

/-- C3, amended: a missing scores file is treated as `hi_score = 0` and a
fresh default record is written at once (even this write failing with
`FileNotFoundError` is caught), and a readable well-formed record loads
its saved value; but an existing malformed record raises an uncaught
JSON decode error, and a write failure other than `FileNotFoundError`
(e.g. an unwritable path) propagates uncaught. -/
theorem init_saved_scores_spec (h : ℤ) (w : WriteOutcome) :
    init_saved_scores .missing .ok = .ok (0, true) ∧
    init_saved_scores .missing .fileNotFound = .ok (0, true) ∧
    init_saved_scores .missing .permissionDenied = .error .osError ∧
    init_saved_scores (.valid h) w = .ok (h, false) ∧
    init_saved_scores .malformed w = .error .jsonDecodeError ∧
    save_scores .fileNotFound = .ok () := by
  refine ⟨rfl, rfl, rfl, ?_, ?_, rfl⟩ <;> rfl

/-! ## C5: firing cap -/

/-- C5: `fire_bullet` succeeds (appending exactly one projectile at the
ship's current midleft point) iff the pool is strictly below the cap; at
or above the cap it fails with no side effect; the pool never grows past
the cap; and with the configured cap of 50, 51 consecutive calls from an
empty pool give 50 successes and then one failure, the pool staying at
50 entries. -/
theorem fire_bullet_cap (amount : ℕ) (pos : ℤ × ℤ) (pool : List (ℤ × ℤ)) :
    ((fire_bullet amount pos pool).1 = true ↔ pool.length < amount) ∧
    ((fire_bullet amount pos pool).1 = true →
      (fire_bullet amount pos pool).2 = pool ++ [pos]) ∧
    ((fire_bullet amount pos pool).1 = false →
      (fire_bullet amount pos pool).2 = pool) ∧
    (pool.length ≤ amount → (fire_bullet amount pos pool).2.length ≤ amount) ∧
    (fire_repeat bullet_amount ((0 : ℤ), (400 : ℤ)) 51 []
      = (List.replicate 50 true ++ [false], List.replicate 50 ((0 : ℤ), (400 : ℤ)))) := by
  refine ⟨?_, ?_, ?_, ?_, by decide⟩ <;>
    · unfold fire_bullet
      by_cases h : pool.length < amount <;> simp [h] <;> omega

/-- C5 witness: the first shot from an empty pool with the configured cap. -/
theorem fire_bullet_cap_witness :
    (fire_bullet 50 ((0 : ℤ), (400 : ℤ)) []).1 = true :=
  (fire_bullet_cap 50 ((0 : ℤ), (400 : ℤ)) []).1.mpr (by decide)

/-! ## C6: fleet size parity -/

/-- C6: whenever both raw quotients are at least 2, both computed counts
are odd (and positive): an even quotient is decremented by 1, an odd one
by 2; and on the configured 1200 by 800 screen with 40 by 40 units the
result is `fleet_h = 19`, `fleet_w = 13`. -/
theorem calculate_fleet_size_odd (ah sh aw sw : ℤ)
    (hh : 2 ≤ Int.fdiv sh ah) (hw : 2 ≤ Int.fdiv sw (2 * aw)) :
    Odd (calculate_fleet_size ah sh aw sw).1 ∧
    0 < (calculate_fleet_size ah sh aw sw).1 ∧
    Odd (calculate_fleet_size ah sh aw sw).2 ∧
    0 < (calculate_fleet_size ah sh aw sw).2 ∧
    calculate_fleet_size alien_h screen_h alien_w screen_w = (19, 13) := by
  unfold calculate_fleet_size
  refine ⟨?_, ?_, ?_, ?_, by decide⟩ <;>
    · simp only [Int.odd_iff]
      split <;> omega

/-- C6 witness: the configured screen and unit dimensions. -/
theorem calculate_fleet_size_odd_witness :
    Odd (calculate_fleet_size 40 800 40 1200).1 ∧
    0 < (calculate_fleet_size 40 800 40 1200).1 ∧
    Odd (calculate_fleet_size 40 800 40 1200).2 ∧
    0 < (calculate_fleet_size 40 800 40 1200).2 ∧
    calculate_fleet_size alien_h screen_h alien_w screen_w = (19, 13) :=
  calculate_fleet_size_odd 40 800 40 1200 (by decide) (by decide)

/-! ## C9: score ordering invariant -/

/-- Invariant carried through a session: score below session max, session
max below persisted high score, session max nonnegative, and the high
score never below the value loaded at startup. -/
def stats_inv (h0 : ℤ) (st : GameStats) : Prop :=
  st.score ≤ st.max_score ∧ st.max_score ≤ st.hi_score ∧
    0 ≤ st.max_score ∧ h0 ≤ st.hi_score

theorem update_score_add_nonneg (n : ℕ) (s : ℤ) :
    ∃ p : ℤ, 0 ≤ p ∧ update_score (List.replicate n ()) s = s + p := by
  refine ⟨alien_points * n, ?_, by rw [update_score_eq]; simp⟩
  have hn : (0 : ℤ) ≤ (n : ℤ) := Int.natCast_nonneg n
  unfold alien_points
  omega

theorem session_step_inv {h0 : ℤ} {st : GameStats} (h : stats_inv h0 st)
    (ev : SessionEv) : stats_inv h0 (session_step st ev) := by
  obtain ⟨h1, h2, h3, h4⟩ := h
  cases ev with
  | restart =>
      refine ⟨?_, ?_, ?_, ?_⟩ <;> simp [session_step, reset_stats] <;> omega
  | kills n =>
      obtain ⟨p, hp, hs⟩ := update_score_add_nonneg n st.score
      simp only [session_step, stats_update, update_max_score, update_hi_score,
        stats_inv, hs]
      split <;> split <;> simp_all <;> omega

theorem session_step_hi_mono (st : GameStats) (ev : SessionEv) :
    st.hi_score ≤ (session_step st ev).hi_score := by
  cases ev with
  | restart => simp [session_step, reset_stats]
  | kills n =>
      obtain ⟨p, hp, hs⟩ := update_score_add_nonneg n st.score
      simp only [session_step, stats_update, update_max_score, update_hi_score, hs]
      split <;> split <;> simp_all <;> omega

theorem stats_inv_run (h0 : ℤ) (evs : List SessionEv) {st : GameStats}
    (h : stats_inv h0 st) : stats_inv h0 (evs.foldl session_step st) := by
  induction evs generalizing st with
  | nil => exact h
  | cons ev rest ih => exact ih (session_step_inv h ev)

/-- C9: starting from a freshly constructed `GameStats` with a
nonnegative saved high score, after any sequence of `update` calls and
restarts the inequality `hi_score ≥ max_score ≥ score` holds, the high
score never drops below the loaded value, and no further event (in
particular no restart) ever decreases `hi_score`. -/
theorem stats_score_order (h0 : ℤ) (evs : List SessionEv) (h : 0 ≤ h0) :
    (evs.foldl session_step (stats_init h0)).score
        ≤ (evs.foldl session_step (stats_init h0)).max_score ∧
    (evs.foldl session_step (stats_init h0)).max_score
        ≤ (evs.foldl session_step (stats_init h0)).hi_score ∧
    h0 ≤ (evs.foldl session_step (stats_init h0)).hi_score ∧
    ∀ ev, (evs.foldl session_step (stats_init h0)).hi_score
        ≤ (session_step (evs.foldl session_step (stats_init h0)) ev).hi_score := by
  have h0inv : stats_inv h0 (stats_init h0) := by
    refine ⟨le_refl _, ?_, le_refl _, le_refl _⟩
    simpa [stats_init, reset_stats] using h
  obtain ⟨h1, h2, h3, h4⟩ := stats_inv_run h0 evs h0inv
  exact ⟨h1, h2, h4, fun ev => session_step_hi_mono _ ev⟩

/-- C9 witness: two kills, a restart, then one kill, from a saved high
score of 100. -/
theorem stats_score_order_witness :
    (([SessionEv.kills 2, SessionEv.restart, SessionEv.kills 1] :
        List SessionEv).foldl session_step (stats_init 100)).score
        ≤ (([SessionEv.kills 2, SessionEv.restart, SessionEv.kills 1] :
        List SessionEv).foldl session_step (stats_init 100)).max_score ∧
    (([SessionEv.kills 2, SessionEv.restart, SessionEv.kills 1] :
        List SessionEv).foldl session_step (stats_init 100)).max_score
        ≤ (([SessionEv.kills 2, SessionEv.restart, SessionEv.kills 1] :
        List SessionEv).foldl session_step (stats_init 100)).hi_score ∧
    (100 : ℤ) ≤ (([SessionEv.kills 2, SessionEv.restart, SessionEv.kills 1] :
        List SessionEv).foldl session_step (stats_init 100)).hi_score ∧
    ∀ ev, (([SessionEv.kills 2, SessionEv.restart, SessionEv.kills 1] :
        List SessionEv).foldl session_step (stats_init 100)).hi_score
        ≤ (session_step (([SessionEv.kills 2, SessionEv.restart, SessionEv.kills 1] :
        List SessionEv).foldl session_step (stats_init 100)) ev).hi_score :=
  stats_score_order 100 [SessionEv.kills 2, SessionEv.restart, SessionEv.kills 1]
    (by decide)

/-! ## C10: reset_stats frame effect -/

/-- C10: `reset_stats` assigns exactly `ships_left`, `score` and `level`;
`max_score` and `hi_score` are untouched, so they persist across an
in-process restart (`restart_game` resets stats the same way). -/
theorem reset_stats_frame (st : GameStats) :
    (reset_stats st).max_score = st.max_score ∧
    (reset_stats st).hi_score = st.hi_score ∧
    (reset_stats st).ships_left = starting_ship_count ∧
    (reset_stats st).score = 0 ∧
    (reset_stats st).level = 1 ∧
    (session_step st .restart).max_score = st.max_score ∧
    (session_step st .restart).hi_score = st.hi_score := by
  simp [reset_stats, session_step]

/-! ## C4: collision resolution -/

theorem filter_partition_length {α : Type} (p : α → Bool) (l : List α) :
    (l.filter p).length + (l.filter (fun b => !p b)).length = l.length := by
  induction l with
  | nil => rfl
  | cons a t ih =>
      by_cases h : p a = true <;> simp [List.filter, h] <;> omega

theorem groupcollide_survivors_subset (aliens : List Rect) :
    ∀ bullets : List Rect, (groupcollide aliens bullets).2.2 ⊆ bullets := by
  induction aliens with
  | nil => intro bullets; simp [groupcollide]
  | cons a rest ih =>
      intro bullets
      simp only [groupcollide]
      split
      · exact ih bullets
      · exact fun b hb => List.mem_of_mem_filter (ih _ hb)

theorem groupcollide_removes_hit (aliens : List Rect) :
    ∀ (bullets : List Rect) (b : Rect), b ∈ bullets →
      (∃ a ∈ aliens, colliderect a b = true) →
      b ∉ (groupcollide aliens bullets).2.2 := by
  induction aliens with
  | nil =>
      intro bullets b _ hex
      simp at hex
  | cons a rest ih =>
      intro bullets b hb hex
      by_cases hcol : colliderect a b = true
      · have hmem : b ∈ bullets.filter (fun x => colliderect a x) :=
          List.mem_filter.mpr ⟨hb, hcol⟩
        have hne : (bullets.filter (fun x => colliderect a x)).isEmpty = false := by
          cases hq : (bullets.filter (fun x => colliderect a x)) with
          | nil => rw [hq] at hmem; simp at hmem
          | cons c t => simp [hq]
        simp only [groupcollide, hne]
        simp only [Bool.false_eq_true, if_false]
        intro hmem2
        have := groupcollide_survivors_subset rest _ hmem2
        rw [List.mem_filter] at this
        simp [hcol] at this
      · obtain ⟨a', ha', hcol'⟩ := hex
        have ha'' : a' ∈ rest := by
          cases ha' with
          | head => exact absurd hcol' hcol
          | tail _ h => exact h
        simp only [groupcollide]
        split
        · exact ih bullets b hb ⟨a', ha'', hcol'⟩
        · refine ih _ b ?_ ⟨a', ha'', hcol'⟩
          refine List.mem_filter.mpr ⟨hb, ?_⟩
          simp [hcol]

theorem groupcollide_alien_partition (aliens : List Rect) :
    ∀ bullets : List Rect,
      (groupcollide aliens bullets).2.1.length + (groupcollide aliens bullets).1.length
        = aliens.length := by
  induction aliens with
  | nil => intro bullets; simp [groupcollide]
  | cons a rest ih =>
      intro bullets
      simp only [groupcollide]
      split
      · have h := ih bullets
        simp only [List.length_cons]
        omega
      · have h := ih (bullets.filter (fun b => !colliderect a b))
        simp only [List.length_cons]
        omega

theorem groupcollide_bullet_partition (aliens : List Rect) :
    ∀ bullets : List Rect,
      ((groupcollide aliens bullets).1.map Prod.snd).flatten.length
          + (groupcollide aliens bullets).2.2.length = bullets.length := by
  induction aliens with
  | nil => intro bullets; simp [groupcollide]
  | cons a rest ih =>
      intro bullets
      simp only [groupcollide]
      split
      · exact ih bullets
      · simp only [List.map_cons, List.flatten_cons, List.length_append]
        have h1 := ih (bullets.filter (fun x => !colliderect a x))
        have h2 := filter_partition_length (fun x => colliderect a x) bullets
        omega

/-- C4, amended: in one `check_collisions` pass, every projectile that
overlapped some enemy of the input state is removed from the live
projectile group, enemies and projectiles are each consumed at most once
(killed enemies plus surviving enemies account for the whole input fleet,
and the projectiles recorded in the collision dict plus the surviving
projectiles account for the whole input pool, so a projectile consumed by
one enemy is never matched against a second), and the subsequent
`_update_score` adds exactly one `alien_points` increment per destroyed
enemy.  An enemy all of whose overlapping projectiles were already
consumed by earlier enemies in the same pass can, however, survive. -/
theorem check_collisions_resolution (aliens bullets : List Rect) (score : ℤ) :
    (∀ b ∈ bullets, (∃ a ∈ aliens, colliderect a b = true) →
        b ∉ (fleet_check_collisions aliens bullets).2.2) ∧
    ((fleet_check_collisions aliens bullets).2.1.length
        + (fleet_check_collisions aliens bullets).1.length = aliens.length) ∧
    (((fleet_check_collisions aliens bullets).1.map Prod.snd).flatten.length
        + (fleet_check_collisions aliens bullets).2.2.length = bullets.length) ∧
    (update_score ((fleet_check_collisions aliens bullets).1.map Prod.snd) score
        = score + alien_points * (fleet_check_collisions aliens bullets).1.length) := by
  refine ⟨fun b hb hex => groupcollide_removes_hit aliens bullets b hb hex,
    groupcollide_alien_partition aliens bullets,
    groupcollide_bullet_partition aliens bullets, ?_⟩
  rw [update_score_eq]
  simp

/-- C4 witness: one alien overlapping one bullet, both get removed. -/
theorem check_collisions_resolution_witness :
    (Rect.mk 4 4 2 2) ∉ (fleet_check_collisions [Rect.mk 0 0 10 10] [Rect.mk 4 4 2 2]).2.2 :=
  (check_collisions_resolution [Rect.mk 0 0 10 10] [Rect.mk 4 4 2 2] 0).1
    (Rect.mk 4 4 2 2) (by decide) ⟨Rect.mk 0 0 10 10, by decide, by decide⟩

/-- C4, counterexample: two enemies both overlapping the single
projectile.  The first enemy consumes the projectile; the second enemy
overlapped a projectile in the input state yet survives the call,
contradicting the claim that no overlapped enemy remains live. -/
theorem check_collisions_shared_bullet_cex :
    colliderect (Rect.mk 5 0 10 10) (Rect.mk 4 4 2 2) = true ∧
    (fleet_check_collisions [Rect.mk 0 0 10 10, Rect.mk 5 0 10 10]
        [Rect.mk 4 4 2 2]).2.1 = [Rect.mk 5 0 10 10] := by
  constructor <;> decide

/-! ## C7: checkerboard fleet population -/

theorem create_rectangle_fleet_mem (fw fh : ℕ) (aw ah x_off y_off : ℤ) (p : ℤ × ℤ) :
    p ∈ create_rectangle_fleet fw fh aw ah x_off y_off ↔
      ∃ row col : ℕ, row < fh ∧ col < fw ∧ row % 2 = 1 ∧ col % 2 = 1 ∧
        p = (aw * (col : ℤ) + x_off, ah * (row : ℤ) + y_off) := by
  unfold create_rectangle_fleet create_alien alien_rect_pos
  simp only [List.mem_flatten, List.mem_map, List.mem_range]
  constructor
  · rintro ⟨l, ⟨col, hcol, rfl⟩, hp⟩
    simp only [List.mem_filterMap, List.mem_range] at hp
    obtain ⟨row, hrow, hg⟩ := hp
    by_cases hpar : row % 2 = 0 ∨ col % 2 = 0
    · simp [hpar] at hg
    · simp only [hpar, if_false, Option.some.injEq] at hg
      push_neg at hpar
      exact ⟨row, col, hrow, hcol, by omega, by omega, hg.symm⟩
  · rintro ⟨row, col, hrow, hcol, hr2, hc2, rfl⟩
    refine ⟨_, ⟨col, hcol, rfl⟩, ?_⟩
    simp only [List.mem_filterMap, List.mem_range]
    refine ⟨row, hrow, ?_⟩
    have hpar : ¬(row % 2 = 0 ∨ col % 2 = 0) := by omega
    simp [hpar]

theorem create_rectangle_fleet_nodup (fw fh : ℕ) (aw ah x_off y_off : ℤ)
    (hw : 0 < aw) (hh : 0 < ah) :
    (create_rectangle_fleet fw fh aw ah x_off y_off).Nodup := by
  unfold create_rectangle_fleet create_alien alien_rect_pos
  rw [List.nodup_flatten]
  constructor
  · intro l hl
    simp only [List.mem_map, List.mem_range] at hl
    obtain ⟨col, hcol, rfl⟩ := hl
    refine List.Nodup.filterMap ?_ (List.nodup_range fh)
    intro r r' v hv hv'
    by_cases h1 : r % 2 = 0 ∨ col % 2 = 0
    · simp [h1] at hv
    · by_cases h2 : r' % 2 = 0 ∨ col % 2 = 0
      · simp [h2] at hv'
      · simp only [h1, h2, if_false, Option.mem_def, Option.some.injEq] at hv hv'
        rw [← hv] at hv'
        have h3 : ah * (r' : ℤ) + y_off = ah * (r : ℤ) + y_off := by
          have := congrArg Prod.snd hv'
          simpa using this
        have h4 : (r' : ℤ) = (r : ℤ) :=
          mul_left_cancel₀ (ne_of_gt hh) (by omega)
        have : r' = r := by exact_mod_cast h4
        omega
  · rw [List.pairwise_map]
    refine List.Pairwise.imp ?_ (List.nodup_range fw)
    intro col col' hne v hv hv'
    simp only [List.mem_filterMap, List.mem_range] at hv hv'
    obtain ⟨r, hr, hg⟩ := hv
    obtain ⟨r', hr', hg'⟩ := hv'
    by_cases h1 : r % 2 = 0 ∨ col % 2 = 0
    · simp [h1] at hg
    · by_cases h2 : r' % 2 = 0 ∨ col' % 2 = 0
      · simp [h2] at hg'
      · simp only [h1, h2, if_false, Option.some.injEq] at hg hg'
        rw [← hg] at hg'
        have h3 : aw * (col' : ℤ) + x_off = aw * (col : ℤ) + x_off := by
          have := congrArg Prod.fst hg'
          simpa using this
        have h4 : (col' : ℤ) = (col : ℤ) :=
          mul_left_cancel₀ (ne_of_gt hw) (by omega)
        exact hne (by exact_mod_cast h4.symm)

/-- C7: with positive unit dimensions, a grid cell holds an enemy iff
both its row and its column index are odd (cells with an even row or even
column index stay empty), the enemy of cell `(row, col)` sits at
`(x_offset + col * unit_w, y_offset + row * unit_h)` — the two argument
swaps between `_create_rectangle_fleet`, `_create_alien` and
`Alien.__init__` cancel — and no cell holds more than one enemy. -/
theorem create_rectangle_fleet_checkerboard (fw fh : ℕ) (aw ah x_off y_off : ℤ)
    (hw : 0 < aw) (hh : 0 < ah) :
    (∀ p : ℤ × ℤ, p ∈ create_rectangle_fleet fw fh aw ah x_off y_off ↔
      ∃ row col : ℕ, row < fh ∧ col < fw ∧ row % 2 = 1 ∧ col % 2 = 1 ∧
        p = (aw * (col : ℤ) + x_off, ah * (row : ℤ) + y_off)) ∧
    (create_rectangle_fleet fw fh aw ah x_off y_off).Nodup :=
  ⟨fun p => create_rectangle_fleet_mem fw fh aw ah x_off y_off p,
    create_rectangle_fleet_nodup fw fh aw ah x_off y_off hw hh⟩

/-- C7 witness: a 4-column, 4-row layout with unit size 1: exactly the
cells (1,1), (1,3), (3,1), (3,3) are populated. -/
theorem create_rectangle_fleet_checkerboard_witness :
    ((1 : ℤ), (1 : ℤ)) ∈ create_rectangle_fleet 4 4 1 1 0 0 ∧
      ((2 : ℤ), (1 : ℤ)) ∉ create_rectangle_fleet 4 4 1 1 0 0 ∧
      (create_rectangle_fleet 4 4 1 1 0 0).Nodup := by
  have h := create_rectangle_fleet_checkerboard 4 4 1 1 0 0 (by decide) (by decide)
  refine ⟨?_, ?_, h.2⟩
  · exact (h.1 ((1 : ℤ), (1 : ℤ))).mpr ⟨1, 1, by decide, by decide, by decide, by decide, by decide⟩
  · intro hmem
    obtain ⟨row, col, hrow, hcol, hr2, hc2, hp⟩ := (h.1 ((2 : ℤ), (1 : ℤ))).mp hmem
    have h1 : (2 : ℤ) = (col : ℤ) := by
      have := congrArg Prod.fst hp
      simpa using this
    have h2 : (1 : ℤ) = (row : ℤ) := by
      have := congrArg Prod.snd hp
      simpa using this
    have hc : col = 2 := by exact_mod_cast h1.symm
    omega

/-! ## C8: fleet advance -/

/-- C8: on each `update_fleet` call the edge check runs on the pre-move
state; if any enemy touches the top or bottom boundary the shared
direction is negated and every enemy's horizontal position decreases by
the drop distance (toward the ship), otherwise both are unchanged; then
every enemy's vertical position changes by `speed * direction` with the
(possibly flipped) direction; a direction in `{+1, -1}` stays in
`{+1, -1}`, over any number of iterated calls. -/
theorem update_fleet_spec (speed drop : ℚ) (f : FleetState) :
    ((update_fleet speed drop f).fleet_direction
      = if f.aliens.any check_edges then -f.fleet_direction else f.fleet_direction) ∧
    ((update_fleet speed drop f).aliens
      = f.aliens.map (fun a =>
          { x := a.x - (if f.aliens.any check_edges then drop else 0),
            y := a.y + speed *
              (((if f.aliens.any check_edges then -f.fleet_direction
                 else f.fleet_direction) : ℤ) : ℚ) })) ∧
    ((f.fleet_direction = 1 ∨ f.fleet_direction = -1) →
      ((update_fleet speed drop f).fleet_direction = 1 ∨
        (update_fleet speed drop f).fleet_direction = -1)) ∧
    (∀ (n : ℕ) (g : FleetState),
      (g.fleet_direction = 1 ∨ g.fleet_direction = -1) →
      (((update_fleet speed drop)^[n] g).fleet_direction = 1 ∨
        ((update_fleet speed drop)^[n] g).fleet_direction = -1)) := by
  have hstep : ∀ g : FleetState,
      (update_fleet speed drop g).fleet_direction
        = if g.aliens.any check_edges then -g.fleet_direction else g.fleet_direction := by
    intro g
    unfold update_fleet check_fleet_edges
    split <;> simp_all
  refine ⟨hstep f, ?_, ?_, ?_⟩
  · unfold update_fleet check_fleet_edges drop_alien_fleet alien_update
    by_cases he : f.aliens.any check_edges = true
    · simp only [he, if_true, List.map_map]
      refine List.map_congr_left ?_
      intro a _
      have hdir : ((f.fleet_direction * -1 : ℤ) : ℚ) = ((-f.fleet_direction : ℤ) : ℚ) := by
        push_cast
        ring
      simp [hdir]
    · simp only [he, Bool.false_eq_true, if_false]
      refine List.map_congr_left ?_
      intro a _
      simp
  · intro h
    rw [hstep f]
    split <;> omega
  · intro n
    induction n with
    | zero => intro g h; simpa using h
    | succ m ih =>
        intro g h
        rw [Function.iterate_succ_apply]
        refine ih _ ?_
        rw [hstep g]
        split <;> omega

/-- C8 witness: a one-alien fleet touching the top edge with the base
settings: the direction flips from +1 to -1 and stays in `{+1, -1}`. -/
theorem update_fleet_spec_witness :
    ((update_fleet fleet_speed fleet_drop_speed
        ⟨[⟨100, 0⟩], fleet_direction⟩).fleet_direction = 1 ∨
      (update_fleet fleet_speed fleet_drop_speed
        ⟨[⟨100, 0⟩], fleet_direction⟩).fleet_direction = -1) :=
  (update_fleet_spec fleet_speed fleet_drop_speed ⟨[⟨100, 0⟩], fleet_direction⟩).2.2.1
    (Or.inl rfl)

/-! ## C1: ship vertical bounds -/

theorem run_ship_int_base_inv (frames : List (Bool × Bool)) :
    ∀ y : ℤ, 10 ∣ y → 0 ≤ y → y ≤ 760 →
      10 ∣ run_ship_int 10 frames y ∧ 0 ≤ run_ship_int 10 frames y ∧
        run_ship_int 10 frames y ≤ 760 := by
  induction frames with
  | nil =>
      intro y h1 h2 h3
      exact ⟨h1, h2, h3⟩
  | cons f rest ih =>
      intro y h1 h2 h3
      have hstep : 10 ∣ update_ship_movement_int 10 f.1 f.2 y ∧
          0 ≤ update_ship_movement_int 10 f.1 f.2 y ∧
          update_ship_movement_int 10 f.1 f.2 y ≤ 760 := by
        unfold update_ship_movement_int ship_rect_h screen_h
        dsimp only
        split_ifs <;> omega
      simp only [run_ship_int, List.foldl_cons]
      exact ih _ hstep.1 hstep.2.1 hstep.2.2

/-- C1, amended: the boundary tests run before the move and only check
that the pre-move box is strictly inside the corresponding bound, so
after every `update()` the box can overshoot the screen's vertical
bounds, but only by strictly less than `ship_speed`; with the base
`ship_speed` of 10, which divides the centered start 380 and the range
bound 760, the box stays exactly within the bounds for every frame
sequence, however long the movement flags are held. -/
theorem ship_update_bounds_amended :
    (∀ (speed y : ℚ) (up down : Bool), 1 ≤ speed → -speed < y →
      y + (ship_rect_h : ℚ) < (screen_h : ℚ) + speed →
      (-speed < update_ship_movement speed up down y ∧
        update_ship_movement speed up down y + (ship_rect_h : ℚ)
          < (screen_h : ℚ) + speed)) ∧
    (∀ frames : List (Bool × Bool),
      0 ≤ ratTrunc (run_ship ship_speed frames (ship_start_y : ℚ)) ∧
      ratTrunc (run_ship ship_speed frames (ship_start_y : ℚ)) + ship_rect_h
        ≤ screen_h) := by
  constructor
  · intro speed y up down hs hlow hhigh
    unfold update_ship_movement
    by_cases c1 : up = true ∧ 0 < ratTrunc y <;>
      by_cases c2 : down = true ∧ ratTrunc y + ship_rect_h < screen_h
    · simp only [if_pos c1, if_pos c2]
      constructor <;> linarith
    · simp only [if_pos c1, if_neg c2]
      have hy1 : (1 : ℚ) ≤ y := le_of_ratTrunc_pos c1.2
      constructor <;> linarith
    · simp only [if_neg c1, if_pos c2]
      have hy2 : y < ((screen_h - ship_rect_h : ℤ) : ℚ) :=
        lt_of_ratTrunc_lt (by omega)
      push_cast at hy2
      constructor <;> linarith
    · simp only [if_neg c1, if_neg c2]
      exact ⟨hlow, hhigh⟩
  · intro frames
    have hcast : run_ship ship_speed frames (ship_start_y : ℚ)
        = ((run_ship_int 10 frames 380 : ℤ) : ℚ) := by
      have h := run_ship_cast 10 380 frames
      have h10 : ((10 : ℤ) : ℚ) = ship_speed := by
        unfold ship_speed
        norm_num
      have h380 : ((380 : ℤ) : ℚ) = (ship_start_y : ℚ) := by
        unfold ship_start_y
        norm_num
      rw [h10, h380] at h
      exact h
    rw [hcast, ratTrunc_intCast]
    obtain ⟨-, h2, h3⟩ := run_ship_int_base_inv frames 380 (by decide) (by decide) (by decide)
    unfold ship_rect_h screen_h
    omega

/-- C1 witness: one update at the base speed from the centered start, and
the empty frame sequence. -/
theorem ship_update_bounds_amended_witness :
    (-(10 : ℚ) < update_ship_movement 10 true false 380 ∧
      update_ship_movement 10 true false 380 + (ship_rect_h : ℚ)
        < (screen_h : ℚ) + 10) ∧
    (0 ≤ ratTrunc (run_ship ship_speed [] (ship_start_y : ℚ)) ∧
      ratTrunc (run_ship ship_speed [] (ship_start_y : ℚ)) + ship_rect_h
        ≤ screen_h) :=
  ⟨ship_update_bounds_amended.1 10 380 true false (by norm_num) (by norm_num)
      (by norm_num [ship_rect_h, screen_h]),
    ship_update_bounds_amended.2 []⟩

set_option maxRecDepth 4000 in
/-- C1, counterexample: after one difficulty increase the ship speed is
`10 * 1.1`, which in binary64 arithmetic is exactly 11; 11 does not
divide the centered start 380, so holding the down flag for 35 frames
moves the box's bottom to 805, past the screen height of 800 — the box
leaves the screen even though every move passed the boundary test. -/
theorem ship_update_bounds_cex :
    ratTrunc (run_ship 11 (List.replicate 35 (false, true)) (ship_start_y : ℚ))
        + ship_rect_h = 805 ∧
    ¬(ratTrunc (run_ship 11 (List.replicate 35 (false, true)) (ship_start_y : ℚ))
        + ship_rect_h ≤ screen_h) := by
  have hcast : run_ship 11 (List.replicate 35 (false, true)) (ship_start_y : ℚ)
      = ((run_ship_int 11 (List.replicate 35 (false, true)) 380 : ℤ) : ℚ) := by
    have h := run_ship_cast 11 380 (List.replicate 35 (false, true))
    have h11 : ((11 : ℤ) : ℚ) = (11 : ℚ) := by norm_num
    have h380 : ((380 : ℤ) : ℚ) = (ship_start_y : ℚ) := by
      unfold ship_start_y
      norm_num
    rw [h11, h380] at h
    exact h
  have hval : run_ship_int 11 (List.replicate 35 (false, true)) 380 = 765 := by decide
  rw [hcast, ratTrunc_intCast, hval]
  unfold ship_rect_h screen_h
  omega
